import Mathlib

/-
Verification of the sonic task-execution bridge.

The definitions below are a shallow embedding of the Go source: the kewpie
task handler registered in subscribe, signalTaskStart, sendWebhook,
webhookToString, getCommandAndArgs, runProc, and the idle-watchdog loop.
External effects (json.Marshal, http.Post, process spawning) are supplied
by an explicit environment so that the handler becomes a pure function of
the environment, the configuration and the task.
-/

namespace Sonic

/-- Task mirrors the kewpie task fields sonic reads: the command line body
and the string-to-string tag map, modelled as an association list; looking
up a missing key yields the Go zero value for strings, the empty string. -/
structure Task where
  body : String
  tags : List (String × String)

/-- tagGet models a Go map read: the value stored under the key, or the
empty string when the key is absent. -/
def tagGet (tags : List (String × String)) (key : String) : String :=
  match tags.find? (fun p => p.1 == key) with
  | some p => p.2
  | none => ""

/-- GoError enumerates the distinct error values the source can return:
the two sentinel webhook errors, the unknown-hook error, a json.Marshal
failure, and the error produced by cmd.Run. Distinct constructors model
Go's pointer-distinct sentinel error values. -/
inductive GoError where
  | webhookServerFailed
  | webhookBadRequest
  | unknownWebhook
  | marshalFailed (msg : String)
  | execFailed
deriving DecidableEq

/-- HttpResult is the observable outcome of http.Post: a transport-level
failure (connection refused, timeout, malformed URL) or a response with a
status code. -/
inductive HttpResult where
  | transportError
  | status (code : Nat)
deriving DecidableEq

/-- Effect records an externally visible action of the handler: an HTTP
POST attempt for a webhook event, or an invocation of the command runner
(the exec.CommandContext + Run call). -/
inductive Effect where
  | httpPost (event : Int) (url : String) (payload : String)
  | exec (command : String) (args : List String)
deriving DecidableEq

/-- Env is the external world sonic interacts with: json.Marshal applied
to a task, http.Post on a url with a payload, and whether spawning a named
command with given arguments starts a process that exits with status 0. -/
structure Env where
  marshal : Task → Except String String
  post : String → String → HttpResult
  spawn : String → List String → Bool

/-- Config holds the configuration values the handler reads; RETRY mirrors
config.RETRY. -/
structure Config where
  RETRY : Bool

/-- Verdict is the pair the kewpie handler returns to the queue: the
requeue flag and the error, where none models a nil Go error. -/
structure Verdict where
  requeue : Bool
  error : Option GoError
deriving DecidableEq

/-- Webhook events are integers in the source, produced by iota. -/
abbrev Webhook := Int

/-- startWebhook is the iota constant for the start event. -/
def startWebhook : Webhook := 1

/-- successWebhook is the iota constant for the success event. -/
def successWebhook : Webhook := 2

/-- failWebhook is the iota constant for the fail event. -/
def failWebhook : Webhook := 3

/-- webhookToString mirrors the switch of the source function of the same
name: the three known hooks map to their names, anything else is the
unknown-web-hook error. -/
def webhookToString (hook : Webhook) : Except GoError String :=
  if hook = 1 then Except.ok "start"
  else if hook = 2 then Except.ok "success"
  else if hook = 3 then Except.ok "fail"
  else Except.error GoError.unknownWebhook

/-- sendWebhook mirrors the source function of the same name: resolve the
event name, look up the tag, return nil with no network call when the tag
is absent or empty, otherwise marshal the task and POST it, classifying
the response (400 is the bad-request sentinel, 2xx is nil, anything else
including transport failure is the server-failed sentinel). The returned
list records the POST attempts that were made. -/
def sendWebhook (env : Env) (event : Webhook) (task : Task) :
    Option GoError × List Effect :=
  match webhookToString event with
  | Except.error err => (some err, [])
  | Except.ok evt =>
    if tagGet task.tags ("webhook_" ++ evt) = "" then (none, [])
    else
      match env.marshal task with
      | Except.error msg => (some (GoError.marshalFailed msg), [])
      | Except.ok payload =>
        let url := tagGet task.tags ("webhook_" ++ evt)
        match env.post url payload with
        | HttpResult.transportError =>
          (some GoError.webhookServerFailed, [Effect.httpPost event url payload])
        | HttpResult.status code =>
          if code = 400 then
            (some GoError.webhookBadRequest, [Effect.httpPost event url payload])
          else if 200 ≤ code ∧ code < 300 then
            (none, [Effect.httpPost event url payload])
          else
            (some GoError.webhookServerFailed, [Effect.httpPost event url payload])

/-- signalTaskStart mirrors the source: send the start webhook and map its
error to the (requeue, error) pair through the if-else chain comparing
against the sentinel errors. -/
def signalTaskStart (env : Env) (task : Task) :
    (Bool × Option GoError) × List Effect :=
  let r := sendWebhook env startWebhook task
  if r.1 = some GoError.webhookServerFailed then ((true, r.1), r.2)
  else if r.1 = some GoError.webhookBadRequest then ((false, r.1), r.2)
  else if r.1 ≠ none then ((false, r.1), r.2)
  else ((false, none), r.2)

/-- isGoSpace is the character class of the RE2 escape used in the source
regular expression (one-or-more whitespace): tab, newline, form feed,
carriage return and space. -/
def isGoSpace (c : Char) : Bool :=
  c == ' ' || c == '\t' || c == '\n' || c == '\x0c' || c == '\r'

/-- splitWSr models regexp Split with limit -1 for the one-or-more
whitespace pattern of the source: the pieces of the string lying between
maximal whitespace runs, including an empty leading or trailing piece when
the string starts or ends with whitespace, and the whole string as a
single piece when it contains no whitespace. A whitespace character whose
successor is also whitespace extends the run its successor starts; a
whitespace character whose successor is not whitespace (or which ends the
string) closes a run and contributes a boundary. -/
def splitWSr : List Char → List (List Char)
  | [] => [[]]
  | c :: cs =>
    if isGoSpace c then
      match cs with
      | [] => [] :: splitWSr cs
      | c2 :: _ => if isGoSpace c2 then splitWSr cs else [] :: splitWSr cs
    else
      match splitWSr cs with
      | [] => [[c]]
      | t :: ts => (c :: t) :: ts

/-- getCommandAndArgs mirrors the source function of the same name: split
the command line on runs of whitespace; the first piece is the command and
the remaining pieces are the arguments in order. -/
def getCommandAndArgs (cli : String) : String × List String :=
  let parts := (splitWSr cli.data).map (fun l => String.mk l)
  (parts.headD "", parts.tail)

/-- runProc mirrors the source: derive command and arguments from the
command line and run the process. env.spawn reports whether the process
starts and exits with status 0; an empty command name never resolves
(os/exec LookPath fails on an empty name), so it always errors. The
effect list records the command-runner invocation. -/
def runProc (env : Env) (cli : String) : Option GoError × List Effect :=
  let ca := getCommandAndArgs cli
  let ok := if ca.1 = "" then false else env.spawn ca.1 ca.2
  (if ok then none else some GoError.execFailed, [Effect.exec ca.1 ca.2])

/-- handleFunc mirrors the handler closure registered in subscribe: signal
start and propagate its verdict when it errors; otherwise run the process;
on failure send the fail webhook (its outcome only logged) and return
(config.RETRY, the process error); on success send the success webhook
(its outcome only logged) and return (false, nil). The effect list records
the externally visible actions in execution order. -/
def handleFunc (env : Env) (cfg : Config) (task : Task) : Verdict × List Effect :=
  match signalTaskStart env task with
  | ((requeue, some err), effs) => (⟨requeue, some err⟩, effs)
  | ((_, none), effs0) =>
    match runProc env task.body with
    | (some err, effs1) =>
      let fw := sendWebhook env failWebhook task
      (⟨cfg.RETRY, some err⟩, effs0 ++ effs1 ++ fw.2)
    | (none, effs1) =>
      let sw := sendWebhook env successWebhook task
      (⟨false, none⟩, effs0 ++ effs1 ++ sw.2)

/-- splitEach is a building block for the specification-side splitter: it
splits a character list at every single character satisfying the
predicate, keeping the (possibly empty) pieces between consecutive
separator characters. -/
def splitEach (p : Char → Bool) : List Char → List (List Char)
  | [] => [[]]
  | c :: cs =>
    if p c then [] :: splitEach p cs
    else
      match splitEach p cs with
      | [] => [[c]]
      | t :: ts => (c :: t) :: ts

/-- keepLastOfRuns drops every empty piece except a final one, so that the
empty pieces produced inside a whitespace run by the single-character
splitter collapse, leaving one boundary per run. -/
def keepLastOfRuns : List (List Char) → List (List Char)
  | [] => []
  | [x] => [x]
  | x :: y :: xs => if x = [] then keepLastOfRuns (y :: xs) else x :: keepLastOfRuns (y :: xs)

/-- specTokensL states the spec's words on character lists: the result of
splitting on maximal runs of whitespace, obtained by splitting at every
whitespace character and collapsing each run's interior empties to the
single boundary it contributes. -/
def specTokensL (l : List Char) : List (List Char) :=
  match splitEach isGoSpace l with
  | [] => [[]]
  | x :: xs => x :: keepLastOfRuns xs

/-- specTokens is the spec's splitter on strings: the command line split
on runs of whitespace into an ordered list of tokens. -/
def specTokens (s : String) : List String :=
  (specTokensL s.data).map (fun l => String.mk l)

/-- OrchEvent is an atomic observable event in the life of the process:
the handler setting the shared busy flag when a task is delivered, the
handler clearing it when it returns, or the idle watchdog waking after
MAX_IDLE and checking the flag. -/
inductive OrchEvent where
  | taskBegin
  | taskEnd
  | check
deriving DecidableEq

/-- SysState is the shared state of the watchdog model: the busy flag
(running in the source) and the exit code once os.Exit has been called. -/
structure SysState where
  running : Bool
  exitCode : Option Nat
deriving DecidableEq

/-- stepEvent advances the state by one event. After the process has
exited nothing changes. The handler sets and clears running; the watchdog
check runs os.Exit 0 exactly when the flag is false at that instant,
mirroring the source loop body. -/
def stepEvent (s : SysState) (e : OrchEvent) : SysState :=
  if s.exitCode.isSome then s
  else
    match e with
    | OrchEvent.taskBegin => ⟨true, s.exitCode⟩
    | OrchEvent.taskEnd => ⟨false, s.exitCode⟩
    | OrchEvent.check => if s.running then s else ⟨s.running, some 0⟩

/-- runTrace folds a sequence of events from the initial state: not busy,
not exited. -/
def runTrace (events : List OrchEvent) : SysState :=
  events.foldl stepEvent ⟨false, none⟩

/-- firesAtLast holds when the final event of the trace is the step at
which the process terminated. -/
def firesAtLast (events : List OrchEvent) : Bool :=
  (runTrace events.dropLast).exitCode.isNone && (runTrace events).exitCode.isSome

/-- containsCompletedTask holds when the event window contains a task that
both began and ended inside it. -/
def containsCompletedTask (events : List OrchEvent) : Bool :=
  ((events.dropWhile (fun e => !(e == OrchEvent.taskBegin))).drop 1).contains OrchEvent.taskEnd

/-- isFailPost recognises an HTTP POST attempt for the fail event. -/
def isFailPost (e : Effect) : Bool :=
  match e with
  | Effect.httpPost ev _ _ => ev == failWebhook
  | _ => false

theorem splitEach_ne_nil (p : Char → Bool) (l : List Char) : splitEach p l ≠ [] := by
  induction l with
  | nil => simp [splitEach]
  | cons c cs ih =>
    cases hpc : p c with
    | true => simp [splitEach, hpc]
    | false =>
      rcases hse : splitEach p cs with _ | ⟨t, ts⟩
      · exact absurd hse ih
      · simp [splitEach, hpc, hse]

theorem keepLastOfRuns_cons_ne (x : List Char) (xs : List (List Char)) (hx : x ≠ []) :
    keepLastOfRuns (x :: xs) = x :: keepLastOfRuns xs := by
  cases xs with
  | nil => simp [keepLastOfRuns]
  | cons y ys => simp [keepLastOfRuns, hx]

theorem splitWSr_eq_specTokensL (l : List Char) : splitWSr l = specTokensL l := by
  induction l with
  | nil => rfl
  | cons c cs ih =>
    cases hc : isGoSpace c with
    | false =>
      rcases hse : splitEach isGoSpace cs with _ | ⟨x, xs⟩
      · exact absurd hse (splitEach_ne_nil _ _)
      · have ihx : splitWSr cs = x :: keepLastOfRuns xs := by
          rw [ih]; unfold specTokensL; rw [hse]
        have hL : splitWSr (c :: cs) = (c :: x) :: keepLastOfRuns xs := by
          simp [splitWSr, hc, ihx]
        have hR : specTokensL (c :: cs) = (c :: x) :: keepLastOfRuns xs := by
          unfold specTokensL
          simp [splitEach, hc, hse]
        rw [hL, hR]
    | true =>
      cases cs with
      | nil => simp [splitWSr, specTokensL, splitEach, keepLastOfRuns, hc]
      | cons c2 cs' =>
        cases hc2 : isGoSpace c2 with
        | true =>
          rcases hse : splitEach isGoSpace cs' with _ | ⟨z, zs⟩
          · exact absurd hse (splitEach_ne_nil _ _)
          · have h1 : splitWSr (c :: c2 :: cs') = splitWSr (c2 :: cs') := by
              simp [splitWSr, hc, hc2]
            have h2 : specTokensL (c :: c2 :: cs') = specTokensL (c2 :: cs') := by
              unfold specTokensL
              simp [splitEach, hc, hc2, hse, keepLastOfRuns]
            rw [h1, ih, h2]
        | false =>
          rcases hse : splitEach isGoSpace cs' with _ | ⟨t, ts⟩
          · exact absurd hse (splitEach_ne_nil _ _)
          · have hspec2 : specTokensL (c2 :: cs') = (c2 :: t) :: keepLastOfRuns ts := by
              unfold specTokensL
              simp [splitEach, hc2, hse]
            have h1 : splitWSr (c :: c2 :: cs') = [] :: splitWSr (c2 :: cs') := by
              simp [splitWSr, hc, hc2]
            have h2 : specTokensL (c :: c2 :: cs') = [] :: (c2 :: t) :: keepLastOfRuns ts := by
              unfold specTokensL
              simp [splitEach, hc, hc2, hse]
              rw [keepLastOfRuns_cons_ne _ _ (by simp)]
            rw [h1, ih, hspec2, h2]

theorem webhook_start_append : ("webhook_" ++ "start" : String) = "webhook_start" := rfl

theorem webhook_success_append : ("webhook_" ++ "success" : String) = "webhook_success" := rfl

theorem webhook_fail_append : ("webhook_" ++ "fail" : String) = "webhook_fail" := rfl

theorem sendWebhook_effects_shape (env : Env) (ev : Webhook) (task : Task) :
    (sendWebhook env ev task).2 = []
    ∨ ∃ url p, (sendWebhook env ev task).2 = [Effect.httpPost ev url p] := by
  unfold sendWebhook
  rcases hw : webhookToString ev with e | evt
  · simp
  · dsimp only
    by_cases htg : tagGet task.tags ("webhook_" ++ evt) = ""
    · rw [if_pos htg]
      simp
    · rw [if_neg htg]
      rcases hmm : env.marshal task with msg | payload
      · simp
      · dsimp only
        rcases hp : env.post (tagGet task.tags ("webhook_" ++ evt)) payload with _ | code
        · right
          exact ⟨_, _, rfl⟩
        · dsimp only
          by_cases h4 : code = 400
          · rw [if_pos h4]
            right
            exact ⟨_, _, rfl⟩
          · rw [if_neg h4]
            by_cases hrg : 200 ≤ code ∧ code < 300
            · rw [if_pos hrg]
              right
              exact ⟨_, _, rfl⟩
            · rw [if_neg hrg]
              right
              exact ⟨_, _, rfl⟩

theorem signalTaskStart_effects (env : Env) (task : Task) :
    (signalTaskStart env task).2 = (sendWebhook env startWebhook task).2 := by
  unfold signalTaskStart
  dsimp only
  split_ifs <;> rfl

theorem sendWebhook_fail_post (env : Env) (task : Task) (p : String)
    (h3 : tagGet task.tags "webhook_fail" ≠ "")
    (hm : env.marshal task = Except.ok p) :
    (sendWebhook env failWebhook task).2 =
      [Effect.httpPost failWebhook (tagGet task.tags "webhook_fail") p] := by
  unfold sendWebhook
  rw [show webhookToString failWebhook = Except.ok "fail" from rfl]
  dsimp only
  rw [webhook_fail_append, if_neg h3, hm]
  dsimp only
  rcases hp : env.post (tagGet task.tags "webhook_fail") p with _ | code
  · rfl
  · dsimp only
    by_cases h4 : code = 400
    · rw [if_pos h4]
    · rw [if_neg h4]
      by_cases hrg : 200 ≤ code ∧ code < 300
      · rw [if_pos hrg]
      · rw [if_neg hrg]

/-- C1: for every delivered task whose command process completes
successfully, the handler's verdict is requeue false with no error,
whatever the outcome of the success-notification webhook (the environment,
hence the notification outcome, is arbitrary). -/
theorem success_verdict_ignores_notification (env : Env) (cfg : Config) (task : Task)
    (h1 : (signalTaskStart env task).1.2 = none)
    (h2 : (runProc env task.body).1 = none) :
    (handleFunc env cfg task).1 = ⟨false, none⟩ := by
  rcases hs : signalTaskStart env task with ⟨⟨rq, err⟩, effs0⟩
  rw [hs] at h1
  simp only at h1
  subst h1
  rcases hr : runProc env task.body with ⟨res, effs1⟩
  rw [hr] at h2
  simp only at h2
  subst h2
  simp [handleFunc, hs, hr]

/-- C2: when the start webhook suffers a transport-level failure or
returns a status other than 400 and outside the 2xx range, the verdict is
requeue true with the server-failed error, and the only effect is the one
start POST: the command runner is never invoked. -/
theorem start_webhook_server_failure_requeues (env : Env) (cfg : Config) (task : Task)
    (p : String)
    (ht : tagGet task.tags "webhook_start" ≠ "")
    (hm : env.marshal task = Except.ok p)
    (hbad : env.post (tagGet task.tags "webhook_start") p = HttpResult.transportError
      ∨ ∃ code, env.post (tagGet task.tags "webhook_start") p = HttpResult.status code
          ∧ code ≠ 400 ∧ ¬ (200 ≤ code ∧ code < 300)) :
    handleFunc env cfg task =
      (⟨true, some GoError.webhookServerFailed⟩,
       [Effect.httpPost startWebhook (tagGet task.tags "webhook_start") p]) := by
  have hw : sendWebhook env startWebhook task =
      (some GoError.webhookServerFailed,
       [Effect.httpPost startWebhook (tagGet task.tags "webhook_start") p]) := by
    unfold sendWebhook
    rw [show webhookToString startWebhook = Except.ok "start" from rfl]
    dsimp only
    rw [webhook_start_append, if_neg ht, hm]
    dsimp only
    rcases hbad with hb | ⟨code, hcode, h400, hrange⟩
    · rw [hb]
    · rw [hcode]
      dsimp only
      rw [if_neg h400, if_neg hrange]
  have hst : signalTaskStart env task =
      ((true, some GoError.webhookServerFailed),
       [Effect.httpPost startWebhook (tagGet task.tags "webhook_start") p]) := by
    unfold signalTaskStart
    rw [hw]
    rfl
  simp [handleFunc, hst]

/-- C3: when the start webhook returns HTTP 400, the verdict is requeue
false with the bad-request (abort) error, and the only effect is the one
start POST: the command runner is never invoked. -/
theorem start_webhook_bad_request_aborts (env : Env) (cfg : Config) (task : Task)
    (p : String)
    (ht : tagGet task.tags "webhook_start" ≠ "")
    (hm : env.marshal task = Except.ok p)
    (h400 : env.post (tagGet task.tags "webhook_start") p = HttpResult.status 400) :
    handleFunc env cfg task =
      (⟨false, some GoError.webhookBadRequest⟩,
       [Effect.httpPost startWebhook (tagGet task.tags "webhook_start") p]) := by
  have hw : sendWebhook env startWebhook task =
      (some GoError.webhookBadRequest,
       [Effect.httpPost startWebhook (tagGet task.tags "webhook_start") p]) := by
    unfold sendWebhook
    rw [show webhookToString startWebhook = Except.ok "start" from rfl]
    dsimp only
    rw [webhook_start_append, if_neg ht, hm]
    dsimp only
    rw [h400]
    simp
  have hst : signalTaskStart env task =
      ((false, some GoError.webhookBadRequest),
       [Effect.httpPost startWebhook (tagGet task.tags "webhook_start") p]) := by
    unfold signalTaskStart
    rw [hw]
    simp
  simp [handleFunc, hst]

/-- C4: when the process fails, the fail webhook (its tag being
configured) is POSTed exactly once, the verdict's requeue flag equals the
configured retry policy and its error is the process error, independent of
the fail-notification's outcome (the environment is arbitrary). -/
theorem process_failure_notifies_fail_once (env : Env) (cfg : Config) (task : Task)
    (p : String)
    (h1 : (signalTaskStart env task).1.2 = none)
    (h2 : (runProc env task.body).1 ≠ none)
    (h3 : tagGet task.tags "webhook_fail" ≠ "")
    (hm : env.marshal task = Except.ok p) :
    (handleFunc env cfg task).1.requeue = cfg.RETRY
    ∧ (handleFunc env cfg task).1.error = (runProc env task.body).1
    ∧ (handleFunc env cfg task).2.countP isFailPost = 1 := by
  rcases hs : signalTaskStart env task with ⟨⟨rq, err⟩, effs0⟩
  rw [hs] at h1
  simp only at h1
  subst h1
  rcases hr : runProc env task.body with ⟨res, effs1⟩
  rw [hr] at h2
  simp only at h2
  rcases res with _ | perr
  · exact absurd rfl h2
  · have h0 : effs0.countP isFailPost = 0 := by
      have heff : effs0 = (sendWebhook env startWebhook task).2 := by
        have hh := signalTaskStart_effects env task
        rw [hs] at hh
        exact hh
      rcases sendWebhook_effects_shape env startWebhook task with hnil | ⟨url, q, hone⟩
      · rw [heff, hnil]
        rfl
      · rw [heff, hone]
        simp [isFailPost, startWebhook, failWebhook]
    have h1' : effs1.countP isFailPost = 0 := by
      have he : effs1 = (runProc env task.body).2 := by rw [hr]
      rw [he]
      simp [runProc, isFailPost]
    have hfail := sendWebhook_fail_post env task p h3 hm
    refine ⟨?_, ?_, ?_⟩
    · simp [handleFunc, hs, hr]
    · simp [handleFunc, hs, hr]
    · simp only [handleFunc, hs, hr]
      rw [List.countP_append, List.countP_append, h0, h1', hfail]
      simp [isFailPost, failWebhook]

/-- C9: for each of the three lifecycle events, when the corresponding
webhook tag is absent or empty the notifier returns nil and performs no
network call. -/
theorem missing_webhook_tag_skips (env : Env) (task : Task) (event : Webhook)
    (h : (event = startWebhook ∧ tagGet task.tags "webhook_start" = "")
       ∨ (event = successWebhook ∧ tagGet task.tags "webhook_success" = "")
       ∨ (event = failWebhook ∧ tagGet task.tags "webhook_fail" = "")) :
    sendWebhook env event task = (none, []) := by
  rcases h with ⟨he, ht⟩ | ⟨he, ht⟩ | ⟨he, ht⟩ <;> subst he <;>
    simp [sendWebhook, startWebhook, successWebhook, failWebhook, webhookToString,
      webhook_start_append, webhook_success_append, webhook_fail_append, ht]

/-- C10: the handler never pairs requeue true with a nil error: whenever
the verdict requests redelivery its error is non-nil. -/
theorem requeue_implies_error (env : Env) (cfg : Config) (task : Task)
    (h : (handleFunc env cfg task).1.requeue = true) :
    (handleFunc env cfg task).1.error ≠ none := by
  rcases hs : signalTaskStart env task with ⟨⟨rq, err⟩, effs0⟩
  rcases err with _ | e
  · rcases hr : runProc env task.body with ⟨res, effs1⟩
    rcases res with _ | perr
    · simp [handleFunc, hs, hr] at h
    · simp [handleFunc, hs, hr]
  · simp [handleFunc, hs]

/-- C5: the command runner splits the command line on runs of whitespace
into a command token (the first token) and the remaining tokens as ordered
arguments, and the spawned process receives exactly these. -/
theorem command_line_split_on_whitespace_runs (env : Env) (cli : String) :
    getCommandAndArgs cli = ((specTokens cli).headD "", (specTokens cli).tail)
    ∧ (runProc env cli).2 =
        [Effect.exec ((specTokens cli).headD "") ((specTokens cli).tail)] := by
  have hparts : (splitWSr cli.data).map (fun l => String.mk l) = specTokens cli := by
    rw [specTokens, splitWSr_eq_specTokensL]
  have h1 : getCommandAndArgs cli = ((specTokens cli).headD "", (specTokens cli).tail) := by
    unfold getCommandAndArgs
    rw [hparts]
  refine ⟨h1, ?_⟩
  unfold runProc
  dsimp only
  rw [h1]

/-- C8: running the empty command line always yields an error from the
command runner: the split of the empty string produces an empty command
token, and an empty command name is a command-not-found condition. -/
theorem empty_command_line_errors (env : Env) :
    (runProc env "").1 = some GoError.execFailed
    ∧ (getCommandAndArgs "").1 = "" :=
  ⟨rfl, rfl⟩

theorem runTrace_exitCode_cases (events : List OrchEvent) :
    (runTrace events).exitCode = none ∨ (runTrace events).exitCode = some 0 := by
  suffices h : ∀ s : SysState, s.exitCode = none ∨ s.exitCode = some 0 →
      (events.foldl stepEvent s).exitCode = none ∨
        (events.foldl stepEvent s).exitCode = some 0 by
    exact h ⟨false, none⟩ (Or.inl rfl)
  induction events with
  | nil => exact fun s hs => hs
  | cons e es ih =>
    intro s hs
    apply ih
    rcases hs with h | h
    · cases e with
      | taskBegin => left; simp [stepEvent, h]
      | taskEnd => left; simp [stepEvent, h]
      | check =>
        by_cases hr : s.running
        · left; simp [stepEvent, h, hr]
        · right; simp [stepEvent, h, hr]
    · right
      simp [stepEvent, h]

/-- C7 (amended): when the idle watchdog fires the process terminates with
exit code 0, the same code as a graceful shutdown, because the source
calls os.Exit 0; every termination in the watchdog model carries exit
code 0. -/
theorem watchdog_exit_code_zero (events : List OrchEvent)
    (h : firesAtLast events = true) :
    (runTrace events).exitCode = some 0 := by
  unfold firesAtLast at h
  rcases runTrace_exitCode_cases events with h0 | h0
  · rw [h0] at h
    simp at h
  · exact h0

/-- C7 counterexample: a firing of the idle watchdog whose exit code is 0,
refuting the claim that the watchdog terminates the process with a
non-zero exit code. -/
theorem watchdog_exit_code_nonzero_cex :
    firesAtLast [OrchEvent.check] = true
    ∧ (runTrace [OrchEvent.check]).exitCode = some 0 := by
  decide

/-- C6 (amended): a watchdog check terminates the process exactly when the
busy flag is false at the instant of the check, whether or not tasks were
handled earlier in the window. -/
theorem watchdog_fires_iff_not_running (events : List OrchEvent)
    (h : (runTrace events).exitCode = none) :
    firesAtLast (events ++ [OrchEvent.check]) = !(runTrace events).running := by
  have hdrop : (events ++ [OrchEvent.check]).dropLast = events := by
    simp
  have hfold : runTrace (events ++ [OrchEvent.check])
      = stepEvent (runTrace events) OrchEvent.check := by
    unfold runTrace
    rw [List.foldl_append]
    rfl
  unfold firesAtLast
  rw [hdrop, hfold]
  cases hr : (runTrace events).running
  · simp [stepEvent, h, hr]
  · simp [stepEvent, h, hr]

/-- C6 counterexample: a window between two consecutive watchdog checks in
which a task is handled to completion, yet the second check fires; this
refutes the claim that the watchdog never fires when a task was handled
during the idle window. -/
theorem watchdog_fires_despite_handled_task :
    ([OrchEvent.taskEnd, OrchEvent.taskBegin, OrchEvent.taskEnd].contains OrchEvent.check)
      = false
    ∧ containsCompletedTask [OrchEvent.taskEnd, OrchEvent.taskBegin, OrchEvent.taskEnd] = true
    ∧ firesAtLast ([OrchEvent.taskBegin] ++ [OrchEvent.check]
        ++ [OrchEvent.taskEnd, OrchEvent.taskBegin, OrchEvent.taskEnd]
        ++ [OrchEvent.check]) = true := by
  decide

/-- taskStartSuccess is a concrete task carrying start and success webhook
tags, used by the witnesses. -/
def taskStartSuccess : Task :=
  Task.mk "echo hi" [("webhook_start", "ustart"), ("webhook_success", "usucc")]

/-- taskFailTag is a concrete task carrying only a fail webhook tag. -/
def taskFailTag : Task := Task.mk "run" [("webhook_fail", "ufail")]

/-- envSuccFail is a concrete environment in which the start webhook is
acknowledged but every other webhook fails at transport level, and the
process succeeds. -/
def envSuccFail : Env :=
  Env.mk (fun _ => Except.ok "p")
    (fun url _ => if url = "ustart" then HttpResult.status 200 else HttpResult.transportError)
    (fun _ _ => true)

/-- envDown is a concrete environment in which every webhook fails at
transport level and the process succeeds. -/
def envDown : Env :=
  Env.mk (fun _ => Except.ok "p") (fun _ _ => HttpResult.transportError) (fun _ _ => true)

/-- env400 is a concrete environment in which every webhook answers 400. -/
def env400 : Env :=
  Env.mk (fun _ => Except.ok "p") (fun _ _ => HttpResult.status 400) (fun _ _ => true)

/-- envNoSpawn is a concrete environment in which every webhook answers
200 but the process fails. -/
def envNoSpawn : Env :=
  Env.mk (fun _ => Except.ok "p") (fun _ _ => HttpResult.status 200) (fun _ _ => false)

/-- cfgRetry is a concrete configuration with the retry policy enabled. -/
def cfgRetry : Config := Config.mk true

theorem success_verdict_ignores_notification_witness :
    ((signalTaskStart envSuccFail taskStartSuccess).1.2 = none
     ∧ (runProc envSuccFail taskStartSuccess.body).1 = none)
    ∧ (handleFunc envSuccFail cfgRetry taskStartSuccess).1 = ⟨false, none⟩ :=
  ⟨⟨by decide, by decide⟩,
   success_verdict_ignores_notification envSuccFail cfgRetry taskStartSuccess
     (by decide) (by decide)⟩

theorem start_webhook_server_failure_requeues_witness :
    (tagGet taskStartSuccess.tags "webhook_start" ≠ ""
     ∧ envDown.marshal taskStartSuccess = Except.ok "p"
     ∧ envDown.post (tagGet taskStartSuccess.tags "webhook_start") "p"
         = HttpResult.transportError)
    ∧ handleFunc envDown cfgRetry taskStartSuccess =
        (⟨true, some GoError.webhookServerFailed⟩,
         [Effect.httpPost startWebhook (tagGet taskStartSuccess.tags "webhook_start") "p"]) :=
  ⟨⟨by decide, rfl, rfl⟩,
   start_webhook_server_failure_requeues envDown cfgRetry taskStartSuccess "p"
     (by decide) rfl (Or.inl rfl)⟩

theorem start_webhook_bad_request_aborts_witness :
    (tagGet taskStartSuccess.tags "webhook_start" ≠ ""
     ∧ env400.marshal taskStartSuccess = Except.ok "p"
     ∧ env400.post (tagGet taskStartSuccess.tags "webhook_start") "p"
         = HttpResult.status 400)
    ∧ handleFunc env400 cfgRetry taskStartSuccess =
        (⟨false, some GoError.webhookBadRequest⟩,
         [Effect.httpPost startWebhook (tagGet taskStartSuccess.tags "webhook_start") "p"]) :=
  ⟨⟨by decide, rfl, rfl⟩,
   start_webhook_bad_request_aborts env400 cfgRetry taskStartSuccess "p"
     (by decide) rfl rfl⟩

theorem process_failure_notifies_fail_once_witness :
    ((signalTaskStart envNoSpawn taskFailTag).1.2 = none
     ∧ (runProc envNoSpawn taskFailTag.body).1 ≠ none
     ∧ tagGet taskFailTag.tags "webhook_fail" ≠ ""
     ∧ envNoSpawn.marshal taskFailTag = Except.ok "p")
    ∧ ((handleFunc envNoSpawn cfgRetry taskFailTag).1.requeue = cfgRetry.RETRY
       ∧ (handleFunc envNoSpawn cfgRetry taskFailTag).1.error
           = (runProc envNoSpawn taskFailTag.body).1
       ∧ (handleFunc envNoSpawn cfgRetry taskFailTag).2.countP isFailPost = 1) :=
  ⟨⟨by decide, by decide, by decide, rfl⟩,
   process_failure_notifies_fail_once envNoSpawn cfgRetry taskFailTag "p"
     (by decide) (by decide) (by decide) rfl⟩

theorem missing_webhook_tag_skips_witness :
    ((successWebhook = startWebhook ∧ tagGet taskFailTag.tags "webhook_start" = "")
     ∨ (successWebhook = successWebhook ∧ tagGet taskFailTag.tags "webhook_success" = "")
     ∨ (successWebhook = failWebhook ∧ tagGet taskFailTag.tags "webhook_fail" = ""))
    ∧ sendWebhook envDown successWebhook taskFailTag = (none, []) :=
  ⟨by decide, missing_webhook_tag_skips envDown taskFailTag successWebhook (by decide)⟩

theorem requeue_implies_error_witness :
    (handleFunc envDown cfgRetry taskStartSuccess).1.requeue = true
    ∧ (handleFunc envDown cfgRetry taskStartSuccess).1.error ≠ none :=
  ⟨by decide, requeue_implies_error envDown cfgRetry taskStartSuccess (by decide)⟩

theorem watchdog_exit_code_zero_witness :
    firesAtLast [OrchEvent.taskBegin, OrchEvent.taskEnd, OrchEvent.check] = true
    ∧ (runTrace [OrchEvent.taskBegin, OrchEvent.taskEnd, OrchEvent.check]).exitCode
        = some 0 :=
  ⟨by decide,
   watchdog_exit_code_zero [OrchEvent.taskBegin, OrchEvent.taskEnd, OrchEvent.check]
     (by decide)⟩

theorem watchdog_fires_iff_not_running_witness :
    (runTrace [OrchEvent.taskBegin, OrchEvent.taskEnd]).exitCode = none
    ∧ firesAtLast ([OrchEvent.taskBegin, OrchEvent.taskEnd] ++ [OrchEvent.check])
        = !(runTrace [OrchEvent.taskBegin, OrchEvent.taskEnd]).running :=
  ⟨by decide,
   watchdog_fires_iff_not_running [OrchEvent.taskBegin, OrchEvent.taskEnd] (by decide)⟩

end Sonic
